import Mathlib

/-!
Verification of the timely task widget (src/app/components/TaskList.tsx and
src/app/lib/types.ts) against its natural-language specification.

The development shallowly embeds the quick-capture parser, the recurrence and
streak engine (`toggleStatus`), and the store normalization helpers
(`normalizeTask`, `replaceTasks` and the on-load normalization effect).

Conventions of the embedding:
* A JavaScript `Date` instant is modelled as `DateTime`: a calendar day
  `rd` counted in days from 1970-01-01 together with the second of the day
  `sod`.  ISO strings stored in task records are an injective encoding of
  such instants, so fields that hold ISO strings hold `DateTime`
  (`Option DateTime` when nullable).  A single local timezone is assumed,
  matching the single-process, single-store design.
* The date-fns functions used by the source (`startOfDay`, `addDays`,
  `addWeeks`, `addMonths`, `addYears`, `nextDay`, `setHours`, `setMinutes`,
  `setSeconds`, `differenceInCalendarDays/Weeks/Months/Years`,
  `format "yyyy-MM-dd"`) are embedded with their documented semantics,
  using the standard civil-calendar/day-number conversion.
* JavaScript regular expressions are embedded as explicit scanners over
  `List Char` replicating the source patterns, including case-insensitive
  matching, `\b` word boundaries (a position is a boundary iff exactly one
  of the two adjacent characters is in `[A-Za-z0-9_]`), alternation order,
  greedy quantifiers with backtracking, and global non-overlapping
  replacement.
-/

namespace Timely

/-! ## Calendar model -/

/-- An instant: `rd` is the calendar day as a signed count of days since
1970-01-01, `sod` the second of that day. -/
structure DateTime where
  rd : Int
  sod : Int
  deriving DecidableEq, Repr

/-- A civil (proleptic Gregorian) calendar date. -/
structure CivilDate where
  year : Int
  month : Int
  day : Int
  deriving DecidableEq, Repr

/-- Day number from a civil date (standard civil-calendar algorithm,
days counted from 1970-01-01). -/
def rdOfCivil (c : CivilDate) : Int :=
  let y := if c.month ≤ 2 then c.year - 1 else c.year
  let era := y / 400
  let yoe := y - era * 400
  let doy := (153 * (c.month + (if c.month > 2 then -3 else 9)) + 2) / 5 + c.day - 1
  let doe := yoe * 365 + yoe / 4 - yoe / 100 + doy
  era * 146097 + doe - 719468

/-- Civil date from a day number (inverse of `rdOfCivil`). -/
def civilOfRd (z0 : Int) : CivilDate :=
  let z := z0 + 719468
  let era := z / 146097
  let doe := z - era * 146097
  let yoe := (doe - doe / 1460 + doe / 36524 - doe / 146096) / 365
  let y := yoe + era * 400
  let doy := doe - (365 * yoe + yoe / 4 - yoe / 100)
  let mp := (5 * doy + 2) / 153
  let d := doy - (153 * mp + 2) / 5 + 1
  let m := mp + (if mp < 10 then 3 else -9)
  ⟨if m ≤ 2 then y + 1 else y, m, d⟩

def isLeapYear (y : Int) : Bool :=
  (y % 4 = 0 && y % 100 != 0) || y % 400 = 0

def daysInMonth (y m : Int) : Int :=
  if m = 2 then (if isLeapYear y then 29 else 28)
  else if m = 4 || m = 6 || m = 9 || m = 11 then 30
  else 31

/-- date-fns `startOfDay`. -/
def startOfDay (dt : DateTime) : DateTime := ⟨dt.rd, 0⟩

/-- date-fns `addDays` (keeps the time of day). -/
def addDays (dt : DateTime) (n : Int) : DateTime := ⟨dt.rd + n, dt.sod⟩

/-- date-fns `addWeeks`. -/
def addWeeks (dt : DateTime) (n : Int) : DateTime := addDays dt (7 * n)

/-- date-fns `addMonths`: move by calendar months, clamping the day of month
to the length of the target month. -/
def addMonths (dt : DateTime) (n : Int) : DateTime :=
  let c := civilOfRd dt.rd
  let total := c.year * 12 + (c.month - 1) + n
  let y := total / 12
  let m := total % 12 + 1
  let d := min c.day (daysInMonth y m)
  ⟨rdOfCivil ⟨y, m, d⟩, dt.sod⟩

/-- date-fns `addYears` (defined as twelve months, as in date-fns). -/
def addYears (dt : DateTime) (n : Int) : DateTime := addMonths dt (12 * n)

/-- JavaScript `Date.prototype.getDay`: 0 = Sunday … 6 = Saturday
(1970-01-01 was a Thursday). -/
def getDay (dt : DateTime) : Int := (dt.rd + 4) % 7

/-- date-fns `nextDay`: the next occurrence of weekday `day` strictly after
`dt`. -/
def nextDay (dt : DateTime) (day : Int) : DateTime :=
  let delta := day - getDay dt
  let delta := if delta ≤ 0 then delta + 7 else delta
  addDays dt delta

/-- date-fns `differenceInCalendarDays`. -/
def differenceInCalendarDays (a b : DateTime) : Int := a.rd - b.rd

/-- date-fns `differenceInCalendarWeeks` with the default week start
(Sunday): difference of the starts of week, in weeks. -/
def differenceInCalendarWeeks (a b : DateTime) : Int :=
  ((a.rd - getDay a) - (b.rd - getDay b)) / 7

/-- date-fns `differenceInCalendarMonths`. -/
def differenceInCalendarMonths (a b : DateTime) : Int :=
  let ca := civilOfRd a.rd
  let cb := civilOfRd b.rd
  (ca.year - cb.year) * 12 + (ca.month - cb.month)

/-- date-fns `differenceInCalendarYears`. -/
def differenceInCalendarYears (a b : DateTime) : Int :=
  (civilOfRd a.rd).year - (civilOfRd b.rd).year

/-- JavaScript `Date.prototype.setHours` semantics (overflow rolls over
into adjacent days); keeps minutes and seconds. -/
def setHours (dt : DateTime) (h : Int) : DateTime :=
  let total := dt.rd * 86400 + h * 3600 + dt.sod % 3600
  ⟨total / 86400, total % 86400⟩

/-- JavaScript `setMinutes`; keeps hours and seconds. -/
def setMinutes (dt : DateTime) (m : Int) : DateTime :=
  let total := dt.rd * 86400 + (dt.sod / 3600) * 3600 + m * 60 + dt.sod % 60
  ⟨total / 86400, total % 86400⟩

/-- JavaScript `setSeconds`; keeps hours and minutes. -/
def setSeconds (dt : DateTime) (s : Int) : DateTime :=
  let total := dt.rd * 86400 + (dt.sod / 60) * 60 + s
  ⟨total / 86400, total % 86400⟩

/-- JavaScript `new Date(year, monthIndex, day, hours, 0, 0)` with the
native rollover semantics for out-of-range month and day. -/
def mkLocalDate (year monthIndex day hours : Int) : DateTime :=
  let total := year * 12 + monthIndex
  let y := total / 12
  let m := total % 12 + 1
  setHours ⟨rdOfCivil ⟨y, m, 1⟩ + (day - 1), 0⟩ hours

def padTwo (n : Int) : String :=
  if n < 10 then "0" ++ toString n else toString n

/-- date-fns `format(d, "yyyy-MM-dd")` (years of four digits, the range used
by the application). -/
def formatYMD (dt : DateTime) : String :=
  let c := civilOfRd dt.rd
  toString c.year ++ "-" ++ padTwo c.month ++ "-" ++ padTwo c.day

/-! ## Character classes and JavaScript regex scanning -/

/-- JavaScript regex word character `\w` = `[A-Za-z0-9_]`. -/
def isWordChar (c : Char) : Bool :=
  ('a' ≤ c && c ≤ 'z') || ('A' ≤ c && c ≤ 'Z') || ('0' ≤ c && c ≤ '9') || c = '_'

/-- JavaScript regex whitespace `\s` (ASCII part). -/
def isWs (c : Char) : Bool :=
  c = ' ' || c = '\t' || c = '\n' || c = '\r' || c.toNat = 11 || c.toNat = 12

/-- The character class `[a-z0-9-]` of the `#`/`@` token patterns, under the
`i` flag. -/
def slugChar (c : Char) : Bool :=
  ('a' ≤ c && c ≤ 'z') || ('A' ≤ c && c ≤ 'Z') || ('0' ≤ c && c ≤ '9') || c = '-'

def isDigitChar (c : Char) : Bool := '0' ≤ c && c ≤ '9'

/-- A `\b` assertion between an optional previous character and the current
character: exactly one of the two sides is a word character (out of range
counts as non-word). -/
def boundary (prev : Option Char) (c : Char) : Bool :=
  (match prev with | none => false | some p => isWordChar p) != isWordChar c

/-- A `\b` assertion after a match: `lastC` is the final matched character,
`next` the character following the match. -/
def boundaryAfterOk (lastC : Char) (next : Option Char) : Bool :=
  isWordChar lastC != (match next with | none => false | some c => isWordChar c)

/-- Case-insensitive literal match: `pat` (lowercase) against the head of
`s`; returns the remainder on success. -/
def matchLitCI : List Char → List Char → Option (List Char)
  | [], s => some s
  | _ :: _, [] => none
  | p :: ps, c :: cs => if c.toLower = p then matchLitCI ps cs else none

def wsRun (s : List Char) : Nat := (s.takeWhile isWs).length

/-- Try a list of literal alternatives (in the pattern's order, lowercase) at
the start of `s`; each must be followed by a `\b`.  Replicates the
backtracking of `(a|b|…)\b`: an alternative that matches literally but fails
the trailing boundary lets the next alternative try. -/
def tryAltsB {α : Type} : List (List Char × α) → List Char → Option (Nat × α)
  | [], _ => none
  | (pat, a) :: rest, s =>
    match matchLitCI pat s with
    | some rem =>
      if boundaryAfterOk (pat.getLastD ' ') rem.head? then some (pat.length, a)
      else tryAltsB rest s
    | none => tryAltsB rest s

/-- A matcher inspects the previous character (for `\b`) and the current
suffix; it reports the length of a match at the current position together
with a value. -/
def Matcher (α : Type) : Type := Option Char → List Char → Option (Nat × α)

def orMatcher {α : Type} (m1 m2 : Matcher α) : Matcher α := fun prev s =>
  match m1 prev s with
  | some r => some r
  | none => m2 prev s

/-- Global regex replacement by the empty string: scan left to right, and on
a match drop the matched text and resume after it.  The previous character
used for `\b` is the one from the original string, as in JavaScript.
Structural recursion on a fuel that starts at the string length; every
step consumes at least one character, so the fuel never runs out. -/
def scanReplaceAux {α : Type} (m : Matcher α) :
    Nat → Option Char → List Char → List Char
  | 0, _, _ => []
  | fuel + 1, prev, s =>
    match s with
    | [] => []
    | c :: rest =>
      match m prev (c :: rest) with
      | some (n, _) =>
        let k := max n 1
        scanReplaceAux m fuel ((c :: rest)[k-1]?) ((c :: rest).drop k)
      | none => c :: scanReplaceAux m fuel (some c) rest

def scanReplace {α : Type} (m : Matcher α) (prev : Option Char) (s : List Char) :
    List Char :=
  scanReplaceAux m s.length prev s

/-- First match of a regex without the global flag: the value of the
leftmost match. -/
def scanFind {α : Type} (m : Matcher α) (prev : Option Char) (s : List Char) :
    Option α :=
  match s with
  | [] => none
  | c :: rest =>
    match m prev (c :: rest) with
    | some (_, a) => some a
    | none => scanFind m (some c) rest

/-- `matchAll`: the values of all matches, scanning left to right,
non-overlapping. -/
def scanCollectAux {α : Type} (m : Matcher α) :
    Nat → Option Char → List Char → List α
  | 0, _, _ => []
  | fuel + 1, prev, s =>
    match s with
    | [] => []
    | c :: rest =>
      match m prev (c :: rest) with
      | some (n, a) =>
        let k := max n 1
        a :: scanCollectAux m fuel ((c :: rest)[k-1]?) ((c :: rest).drop k)
      | none => scanCollectAux m fuel (some c) rest

def scanCollect {α : Type} (m : Matcher α) (prev : Option Char) (s : List Char) :
    List α :=
  scanCollectAux m s.length prev s

/-- JavaScript `toLowerCase` (ASCII). -/
def lowerStr (s : String) : String := ⟨s.data.map Char.toLower⟩

/-- JavaScript `String.prototype.trim` (ASCII whitespace). -/
def trimChars (s : List Char) : List Char :=
  ((s.dropWhile isWs).reverse.dropWhile isWs).reverse

def trimStr (s : List Char) : String := ⟨trimChars s⟩

/-- `replace(/\s+/g, " ")`. -/
def collapseWsAux : Nat → List Char → List Char
  | 0, _ => []
  | fuel + 1, s =>
    match s with
    | [] => []
    | c :: rest =>
      if isWs c then ' ' :: collapseWsAux fuel (rest.dropWhile isWs)
      else c :: collapseWsAux fuel rest

def collapseWs (s : List Char) : List Char := collapseWsAux s.length s

/-! ## Data model (src/app/lib/types.ts plus the fields the component uses) -/

inductive Priority where
  | high | medium | low | none
  deriving DecidableEq, Repr

inductive Repeat where
  | none | daily | weekly | monthly | yearly
  deriving DecidableEq, Repr

inductive Status where
  | todo | inProgress | done
  deriving DecidableEq, Repr

structure ChecklistItem where
  id : String
  text : String
  done : Bool
  deriving DecidableEq, Repr

/-- The task record as the component reads and writes it (the `Task`
interface of `types.ts` extended with the `section` and `completedDates`
fields the component uses). -/
structure Task where
  id : String
  title : String
  category : String
  «section» : String
  tags : List String
  dueDate : Option DateTime
  reminderAt : Option DateTime
  priority : Priority
  «repeat» : Repeat
  status : Status
  notes : String
  checklist : List ChecklistItem
  myDay : List String
  lastCompletedAt : Option DateTime
  streak : Int
  completedDates : List String
  createdAt : DateTime
  deriving DecidableEq, Repr

structure Category where
  id : String
  name : String
  color : String
  deriving DecidableEq, Repr

def DEFAULT_CATEGORIES : List Category :=
  [⟨"work", "Work", "bg-blue-500"⟩,
   ⟨"personal", "Personal", "bg-green-500"⟩,
   ⟨"school", "School", "bg-purple-500"⟩,
   ⟨"health", "Health", "bg-red-500"⟩,
   ⟨"finance", "Finance", "bg-orange-500"⟩]

/-- `normalizeTag`: `tag.trim().toLowerCase()`. -/
def normalizeTag (tag : String) : String := lowerStr (trimStr tag.data)

/-! ## Quick-capture parser (TaskList.tsx) -/

/-- Matcher for `sym([a-z0-9-]+)` (with `sym` being `#` or `@`): the
captured slug. -/
def symTokenMatcher (sym : Char) : Matcher (List Char) := fun _ s =>
  match s with
  | [] => none
  | c :: rest =>
    if c = sym then
      let run := rest.takeWhile slugChar
      if run.isEmpty then none else some (1 + run.length, run)
    else none

/-- `getCategoryFromInput`: all `#slug` captures, normalized; the first that
equals a category id or (normalized) name wins; fallback to the first
category, then `"personal"`. -/
def getCategoryFromInput (input : String) (categories : List Category) : String :=
  let found := (scanCollect (symTokenMatcher '#') none input.data).map
    (fun run => normalizeTag ⟨run⟩)
  match found.findSome? (fun m =>
      (categories.find? (fun c => c.id = m || normalizeTag c.name = m)).map
        (fun c => c.id)) with
  | some id => id
  | none => ((categories.head?).map (fun c => c.id)).getD "personal"

/-- `extractTags`: all `@slug` captures, normalized, in order, duplicates
kept. -/
def extractTags (input : String) : List String :=
  (scanCollect (symTokenMatcher '@') none input.data).map (fun run => normalizeTag ⟨run⟩)

/-- Matcher for `\b(alt1|alt2|…)\b` over lowercase literal alternatives. -/
def altsBMatcher {α : Type} (alts : List (List Char × α)) : Matcher α := fun prev s =>
  match s with
  | [] => none
  | c :: _ => if boundary prev c then tryAltsB alts s else none

def testAltsB (alts : List (List Char)) (s : String) : Bool :=
  (scanFind (altsBMatcher (alts.map (fun p => (p, ())))) none s.data).isSome

/-- `extractPriority`: the three tests `\b(!high|p1)\b`, `\b(!med|!medium|p2)\b`,
`\b(!low|p3)\b` on the lowercased input, in that order. -/
def extractPriority (input : String) : Priority :=
  let lowered := lowerStr input
  if testAltsB ["!high".data, "p1".data] lowered then .high
  else if testAltsB ["!med".data, "!medium".data, "p2".data] lowered then .medium
  else if testAltsB ["!low".data, "p3".data] lowered then .low
  else .none

/-- Matcher for `\bevery\s+unit\b` with a single unit word. -/
def everyUnitMatcher (unit : List Char) : Matcher Unit := fun prev s =>
  match s with
  | [] => none
  | c :: _ =>
    if boundary prev c then
      match matchLitCI "every".data s with
      | some r1 =>
        let w := wsRun r1
        if w = 0 then none
        else
          match matchLitCI unit (r1.drop w) with
          | some r2 =>
            if boundaryAfterOk (unit.getLastD ' ') r2.head? then
              some (5 + w + unit.length, ())
            else none
          | none => none
      | none => none
    else none

def testEveryOr (unit : List Char) (word : List Char) (s : String) : Bool :=
  (scanFind (orMatcher (everyUnitMatcher unit) (altsBMatcher [(word, ())])) none s.data).isSome

/-- `extractRepeat`: the four tests `\b(every\s+day|daily)\b` … on the
lowercased input, in order. -/
def extractRepeat (input : String) : Repeat :=
  let lowered := lowerStr input
  if testEveryOr "day".data "daily".data lowered then .daily
  else if testEveryOr "week".data "weekly".data lowered then .weekly
  else if testEveryOr "month".data "monthly".data lowered then .monthly
  else if testEveryOr "year".data "yearly".data lowered then .yearly
  else .none

/-- A character allowed inside the section capture: `[^#@!]`. -/
def sectionChar (c : Char) : Bool := !(c = '#' || c = '@' || c = '!')

/-- Matcher for `>\s*([^#@!]+)` returning the capture group.  When the
character after the whitespace run cannot start the capture, the greedy
`\s*` backtracks by one and the capture is that single whitespace
character. -/
def sectionCapMatcher : Matcher (List Char) := fun _ s =>
  match s with
  | '>' :: rest =>
    let w := wsRun rest
    let cap := (rest.drop w).takeWhile sectionChar
    if cap.length ≥ 1 then some (1 + w + cap.length, cap)
    else if w ≥ 1 then some (1 + w, (rest.take w).drop (w - 1))
    else none
  | _ => none

/-- `extractSection`: first match of `>\s*([^#@!]+)`, capture trimmed, else
`""`. -/
def extractSection (input : String) : String :=
  match scanFind sectionCapMatcher none input.data with
  | some cap => trimStr cap
  | none => ""

/-- The weekday alternation of the due-date and title patterns, in the
pattern's order:
`mon|monday|tue|tues|tuesday|wed|weds|wednesday|thu|thurs|thursday|fri|friday|sat|saturday|sun|sunday`. -/
def weekdayPatterns : List (List Char) :=
  ["mon".data, "monday".data, "tue".data, "tues".data, "tuesday".data,
   "wed".data, "weds".data, "wednesday".data, "thu".data, "thurs".data,
   "thursday".data, "fri".data, "friday".data, "sat".data, "saturday".data,
   "sun".data, "sunday".data]

/-- The `weekdayIndexes` record. -/
def weekdayIndexes : List (String × Int) :=
  [("sun", 0), ("sunday", 0), ("mon", 1), ("monday", 1), ("tue", 2),
   ("tues", 2), ("tuesday", 2), ("wed", 3), ("weds", 3), ("wednesday", 3),
   ("thu", 4), ("thurs", 4), ("thursday", 4), ("fri", 5), ("friday", 5),
   ("sat", 6), ("saturday", 6)]

/-- `weekdayIndexes[w] ?? 0`. -/
def lookupWeekday (w : List Char) : Int :=
  ((weekdayIndexes.find? (fun p => p.1.data = w)).map (fun p => p.2)).getD 0

/-- Matcher for `\b(mon|…|sunday)\b`, returning the matched token. -/
def bareWeekdayMatcher : Matcher (List Char) :=
  altsBMatcher (weekdayPatterns.map (fun p => (p, p)))

/-- Matcher for `\bnext\s+(mon|…|sunday)\b`, returning the captured
weekday token. -/
def nextWeekdayMatcher : Matcher (List Char) := fun prev s =>
  match s with
  | [] => none
  | c :: _ =>
    if boundary prev c then
      match matchLitCI "next".data s with
      | some r1 =>
        let w := wsRun r1
        if w = 0 then none
        else
          match tryAltsB (weekdayPatterns.map (fun p => (p, p))) (r1.drop w) with
          | some (n, tok) => some (4 + w + n, tok)
          | none => none
      | none => none
    else none

/-- `lowered.match(/\bnext\s+(mon|…)\b/)`, capture group 1. -/
def findNextWeekday (s : List Char) : Option (List Char) :=
  scanFind nextWeekdayMatcher none s

/-- `lowered.match(/\b(mon|…)\b/)`, capture group 1. -/
def findBareWeekday (s : List Char) : Option (List Char) :=
  scanFind bareWeekdayMatcher none s

/-- The test `\bword\b` for a single word of word characters. -/
def testWordToken (word : String) (s : String) : Bool :=
  testAltsB [word.data] s

/-- `extractDueDate`.  `now` stands for the `new Date()` the source takes;
the source returns ISO strings of the computed start-of-day instants. -/
def extractDueDate (input : String) (now : DateTime) : Option DateTime :=
  let lowered := lowerStr input
  let today := startOfDay now
  if testWordToken "today" lowered then some today
  else if testWordToken "tomorrow" lowered then some (startOfDay (addDays today 1))
  else
    match findNextWeekday lowered.data with
    | some tok => some (startOfDay (addDays (nextDay today (lookupWeekday tok)) 0))
    | none =>
      match findBareWeekday lowered.data with
      | some tok => some (startOfDay (nextDay (addDays today (-1)) (lookupWeekday tok)))
      | none => none


/-- Descending list `[n, n-1, …, 0]` (greedy quantifier candidates). -/
def downFrom : Nat → List Nat
  | 0 => [0]
  | n + 1 => (n + 1) :: downFrom n

/-- Descending list `[n, n-1, …, 1]`. -/
def downFromOne (n : Nat) : List Nat := (downFrom n).dropLast

/-- The character class of the reminder time token in the title pattern
(lowercase letters under the `i` flag, digits, colon, dot, slash, hyphen). -/
def remindTitleCls (c : Char) : Bool :=
  ('a' ≤ c && c ≤ 'z') || ('A' ≤ c && c ≤ 'Z') || ('0' ≤ c && c ≤ '9') ||
    c = ':' || c = '.' || c = '/' || c = '-'

/-- Backtracking matcher for the part of the title pattern
`remind(?:\s+at)?\s+(today|tomorrow)?\s*CLS+\s*(am|pm)?\b` (where `CLS`
is `remindTitleCls`) after the literal `remind`: returns the number of further characters consumed.
Each greedy quantifier tries its candidates longest first; the trailing
`\b` is checked against the last consumed character. -/
def remindTailLen (s : List Char) : Option Nat :=
  let atCands : List Nat :=
    (let w := wsRun s
     if w ≥ 1 then
       match matchLitCI "at".data (s.drop w) with
       | some _ => [w + 2]
       | none => []
     else []) ++ [0]
  atCands.findSome? (fun aLen =>
    let s1 := s.drop aLen
    let w2 := wsRun s1
    if w2 = 0 then none
    else
      let s2 := s1.drop w2
      let dCands : List Nat :=
        (match matchLitCI "today".data s2 with | some _ => [5] | none => []) ++
        (match matchLitCI "tomorrow".data s2 with | some _ => [8] | none => []) ++ [0]
      dCands.findSome? (fun dLen =>
        let s3 := s2.drop dLen
        (downFrom (wsRun s3)).findSome? (fun uLen =>
          let s4 := s3.drop uLen
          let r := (s4.takeWhile remindTitleCls).length
          if r = 0 then none
          else
            (downFromOne r).findSome? (fun kLen =>
              let s5 := s4.drop kLen
              (downFrom (wsRun s5)).findSome? (fun vLen =>
                let s6 := s5.drop vLen
                let mCands : List Nat :=
                  (match matchLitCI "am".data s6 with | some _ => [2] | none => []) ++
                  (match matchLitCI "pm".data s6 with | some _ => [2] | none => []) ++ [0]
                mCands.findSome? (fun mLen =>
                  let consumed := aLen + w2 + dLen + uLen + kLen + vLen + mLen
                  match s[consumed - 1]? with
                  | some lc =>
                    if boundaryAfterOk lc (s.drop consumed).head? then some consumed
                    else none
                  | none => none))))))

/-- Matcher for the whole title pattern
`\bremind(?:\s+at)?\s+(today|tomorrow)?\s*CLS+\s*(am|pm)?\b`. -/
def remindMatcher : Matcher Unit := fun prev s =>
  match s with
  | [] => none
  | c :: _ =>
    if boundary prev c then
      match matchLitCI "remind".data s with
      | some rest =>
        match remindTailLen rest with
        | some t => some (6 + t, ())
        | none => none
      | none => none
    else none

/-- Matcher for `(next\s+)?(mon|…|sunday)\b` after a leading `\b`: the
optional greedy `next\s+` backtracks to empty when no weekday follows. -/
def weekdayRemoveMatcher : Matcher Unit := fun prev s =>
  match s with
  | [] => none
  | c :: _ =>
    if boundary prev c then
      let withNext :=
        match matchLitCI "next".data s with
        | some r1 =>
          let w := wsRun r1
          if w = 0 then none
          else
            match tryAltsB (weekdayPatterns.map (fun p => (p, ()))) (r1.drop w) with
            | some (n, _) => some (4 + w + n, ())
            | none => none
        | none => none
      match withNext with
      | some r => some r
      | none => tryAltsB (weekdayPatterns.map (fun p => (p, ()))) s
    else none

/-- Matcher for the whole-section removal `>\s*[^#@!]+` (no boundaries):
the match length including the `>`. -/
def sectionRemoveMatcher : Matcher Unit := fun _ s =>
  match s with
  | '>' :: rest =>
    let w := wsRun rest
    let capLen := ((rest.drop w).takeWhile sectionChar).length
    if capLen ≥ 1 then some (1 + w + capLen, ())
    else if w ≥ 1 then some (1 + w, ())
    else none
  | _ => none

/-- Matcher for `\bevery\s+(day|week|month|year)\b`. -/
def everyAnyMatcher : Matcher Unit := fun prev s =>
  match s with
  | [] => none
  | c :: _ =>
    if boundary prev c then
      match matchLitCI "every".data s with
      | some r1 =>
        let w := wsRun r1
        if w = 0 then none
        else
          match tryAltsB [("day".data, ()), ("week".data, ()), ("month".data, ()),
              ("year".data, ())] (r1.drop w) with
          | some (n, _) => some (5 + w + n, ())
          | none => none
      | none => none
    else none

/-- `cleanTaskTitle`: the source's chain of nine global replacements,
then whitespace collapsing and trimming. -/
def cleanTaskTitle (input : String) : String :=
  let s1 := scanReplace (symTokenMatcher '#') none input.data
  let s2 := scanReplace (symTokenMatcher '@') none s1
  let s3 := scanReplace (altsBMatcher
    [("!high".data, ()), ("!med".data, ()), ("!medium".data, ()),
     ("!low".data, ()), ("p1".data, ()), ("p2".data, ()), ("p3".data, ())]) none s2
  let s4 := scanReplace everyAnyMatcher none s3
  let s5 := scanReplace (altsBMatcher
    [("daily".data, ()), ("weekly".data, ()), ("monthly".data, ()),
     ("yearly".data, ())]) none s4
  let s6 := scanReplace weekdayRemoveMatcher none s5
  let s7 := scanReplace (altsBMatcher [("today".data, ()), ("tomorrow".data, ())]) none s6
  let s8 := scanReplace remindMatcher none s7
  let s9 := scanReplace sectionRemoveMatcher none s8
  trimStr (collapseWs s9)


/-- The character class of the reminder time token in `extractReminderAt`
(digits, colon, dot, slash, hyphen — no letters). -/
def remindTimeCls (c : Char) : Bool :=
  ('0' ≤ c && c ≤ '9') || c = ':' || c = '.' || c = '/' || c = '-'

/-- Matcher for `remind(?:\s+at)?\s+(today|tomorrow)?\s*(CLS+(?:\s*(?:am|pm))?)`
(where `CLS` is `remindTimeCls`; no word boundaries, first match), returning
the two capture groups: the optional day token and the time token.  The
trailing optional group extends the capture only when `am`/`pm` actually
follows the optional whitespace. -/
def reminderAtMatcher : Matcher (Option (List Char) × List Char) := fun _ s =>
  match matchLitCI "remind".data s with
  | none => none
  | some rest =>
    let atCands : List Nat :=
      (let w := wsRun rest
       if w ≥ 1 then
         match matchLitCI "at".data (rest.drop w) with
         | some _ => [w + 2]
         | none => []
       else []) ++ [0]
    (atCands.findSome? (fun aLen =>
      let s1 := rest.drop aLen
      let w2 := wsRun s1
      if w2 = 0 then none
      else
        let s2 := s1.drop w2
        let dCands : List (Nat × Option (List Char)) :=
          (match matchLitCI "today".data s2 with
           | some _ => [(5, some "today".data)] | none => []) ++
          (match matchLitCI "tomorrow".data s2 with
           | some _ => [(8, some "tomorrow".data)] | none => []) ++ [(0, none)]
        dCands.findSome? (fun (dLen, dTok) =>
          let s3 := s2.drop dLen
          let w3 := wsRun s3
          let s4 := s3.drop w3
          let r := (s4.takeWhile remindTimeCls).length
          if r = 0 then none
          else
            let core := s4.take r
            let s5 := s4.drop r
            let w4 := wsRun s5
            let s6 := s5.drop w4
            let tailLen :=
              match matchLitCI "am".data s6 with
              | some _ => w4 + 2
              | none =>
                match matchLitCI "pm".data s6 with
                | some _ => w4 + 2
                | none => 0
            let cap2 := core ++ ((s5.take tailLen))
            some (6 + aLen + w2 + dLen + w3 + r + tailLen, (dTok, cap2)))))

/-- `^(\d{4})-(\d{2})-(\d{2})$` on the trimmed time token. -/
def parseYMDToken (s : List Char) : Option (Int × Int × Int) :=
  match s with
  | [y1, y2, y3, y4, '-', m1, m2, '-', d1, d2] =>
    if [y1, y2, y3, y4, m1, m2, d1, d2].all isDigitChar then
      let num := fun (l : List Char) =>
        (l.foldl (fun acc c => acc * 10 + (c.toNat - 48)) 0 : Nat)
      some ((num [y1, y2, y3, y4] : Int), (num [m1, m2] : Int), (num [d1, d2] : Int))
    else none
  | _ => none

/-- `^(\d{1,2})(?::(\d{2}))?\s*(am|pm)?$` on the trimmed time token; returns
(hours, minutes, meridiem) with meridiem `some true` for `pm`, `some false`
for `am`. -/
def parseTimeToken (s : List Char) : Option (Int × Int × Option Bool) :=
  let digits := s.takeWhile isDigitChar
  if digits.length = 0 || digits.length > 2 then none
  else
    let hours : Int := (digits.foldl (fun acc c => acc * 10 + (c.toNat - 48)) 0 : Nat)
    let rest := s.drop digits.length
    let minutesPart : Option (Int × List Char) :=
      match rest with
      | ':' :: m1 :: m2 :: r =>
        if isDigitChar m1 && isDigitChar m2 then
          some (((m1.toNat - 48) * 10 + (m2.toNat - 48) : Nat), r)
        else none
      | _ => some (0, rest)
    match minutesPart with
    | none => none
    | some (minutes, r1) =>
      let r2 := r1.drop (wsRun r1)
      match r2 with
      | [] => some (hours, minutes, none)
      | ['a', 'm'] => some (hours, minutes, some false)
      | ['p', 'm'] => some (hours, minutes, some true)
      | _ => none

/-- `extractReminderAt`.  `now` stands for the source's `new Date()`. -/
def extractReminderAt (input : String) (now : DateTime) : Option DateTime :=
  let lowered := lowerStr input
  match scanFind reminderAtMatcher none lowered.data with
  | none => none
  | some (dateToken, timeTokenRaw) =>
    let timeToken := trimChars timeTokenRaw
    let baseDate := startOfDay now
    let date := if dateToken = some "tomorrow".data then addDays baseDate 1 else baseDate
    match parseYMDToken timeToken with
    | some (y, m, d) => some (mkLocalDate y (m - 1) d 9)
    | none =>
      match parseTimeToken timeToken with
      | none => none
      | some (h, minutes, meridiem) =>
        let hours :=
          match meridiem with
          | some true => if h < 12 then h + 12 else h
          | some false => if h = 12 then 0 else h
          | none => h
        some (setSeconds (setMinutes (setHours date hours) minutes) 0)

/-! ## Task creation and the store mutations (TaskList.tsx) -/

/-- `createTask` without overrides; `id` stands for the generated unique id
and `now` for `new Date()`. -/
def createTask (id : String) (now : DateTime) (title category : String) : Task :=
  { id := id, title := title, category := category, «section» := "", tags := [],
    dueDate := none, reminderAt := none, priority := .none, «repeat» := .none,
    status := .todo, notes := "", checklist := [], myDay := [],
    lastCompletedAt := none, streak := 0, completedDates := [], createdAt := now }

/-- The task `addTask` builds from an input line (the `createTask` call with
the parsed overrides). -/
def parsedTask (id : String) (now : DateTime) (input : String) : Task :=
  { createTask id now (cleanTaskTitle input) (getCategoryFromInput input DEFAULT_CATEGORIES) with
    «section» := extractSection input,
    tags := extractTags input,
    priority := extractPriority input,
    «repeat» := extractRepeat input,
    dueDate := extractDueDate input now,
    reminderAt := extractReminderAt input now }

/-- `addTask`: no-op when the cleaned title is empty, otherwise prepend the
parsed task. -/
def addTask (id : String) (now : DateTime) (input : String) (current : List Task) :
    List Task :=
  let title := cleanTaskTitle input
  if title = "" then current
  else parsedTask id now input :: current


/-- First-occurrence deduplication, as JavaScript `new Set(array)` iteration
order. -/
def dedupKeepFirst (l : List String) : List String :=
  l.foldl (fun acc x => if x ∈ acc then acc else acc ++ [x]) []

/-- `Array.from(new Set(l).add(k))`. -/
def setAdd (l : List String) (k : String) : List String :=
  let d := dedupKeepFirst l
  if k ∈ d then d else d ++ [k]

/-- The body of `toggleStatus` for the task whose id matches; `now` stands
for the `new Date()` taken inside the handler. -/
def toggleStatusTask (now : DateTime) (task : Task) : Task :=
  let isCompleting := task.status != Status.done
  let nextStreak : Int :=
    if isCompleting && task.«repeat» != Repeat.none then
      match task.lastCompletedAt with
      | none => 1
      | some lastCompleted =>
        let delta : Int :=
          match task.«repeat» with
          | .daily => differenceInCalendarDays now lastCompleted
          | .weekly => differenceInCalendarWeeks now lastCompleted
          | .monthly => differenceInCalendarMonths now lastCompleted
          | .yearly => differenceInCalendarYears now lastCompleted
          | .none => 0
        if delta ≤ 0 then task.streak
        else if delta = 1 then task.streak + 1
        else 1
    else task.streak
  if isCompleting && task.«repeat» != Repeat.none then
    let baseDate := match task.dueDate with | some d => d | none => now
    let nextDate :=
      match task.«repeat» with
      | .daily => addDays baseDate 1
      | .weekly => addWeeks baseDate 1
      | .monthly => addMonths baseDate 1
      | .yearly => addYears baseDate 1
      | .none => baseDate
    let todayKey := formatYMD (startOfDay now)
    let completedDates := setAdd task.completedDates todayKey
    { task with
      status := .todo,
      dueDate := some (startOfDay nextDate),
      lastCompletedAt := some now,
      streak := nextStreak,
      completedDates := completedDates }
  else
    { task with
      status := if isCompleting then .done else .todo,
      lastCompletedAt := if isCompleting then some now else task.lastCompletedAt,
      streak := if isCompleting then nextStreak else task.streak }

/-- `toggleStatus`: rewrite the matching task in place, keep the rest. -/
def toggleStatus (id : String) (now : DateTime) (tasks : List Task) : List Task :=
  tasks.map (fun task => if task.id = id then toggleStatusTask now task else task)

/-! ## Store normalization (TaskProvider) -/

/-- A stored task record as read back from the persisted JSON blob: the
original-schema fields are always present, each newer field may be absent
(`Option.none` = the JSON key is missing).  For the two nullable newer
fields the inner option is the stored `null`-or-value. -/
structure RawTask where
  id : String
  title : String
  category : String
  dueDate : Option DateTime
  priority : Priority
  status : Status
  notes : String
  createdAt : DateTime
  «section» : Option String
  tags : Option (List String)
  «repeat» : Option Repeat
  checklist : Option (List ChecklistItem)
  reminderAt : Option (Option DateTime)
  myDay : Option (List String)
  lastCompletedAt : Option (Option DateTime)
  streak : Option Int
  completedDates : Option (List String)
  deriving DecidableEq, Repr

/-- `normalizeTask`: fill every newer field with its default when absent
(`?? `-defaults; `Array.isArray` guards model as presence of the field;
`typeof streak === "number"` likewise). -/
def normalizeTask (task : RawTask) : RawTask :=
  { task with
    «section» := some (task.«section».getD ""),
    tags := some (task.tags.getD []),
    «repeat» := some (task.«repeat».getD Repeat.none),
    checklist := some (task.checklist.getD []),
    reminderAt := some (task.reminderAt.getD none),
    myDay := some (task.myDay.getD []),
    lastCompletedAt := some (task.lastCompletedAt.getD none),
    streak := some (task.streak.getD 0),
    completedDates := some (task.completedDates.getD []) }

/-- The on-load normalization effect of `TaskProvider`: normalize all
records, but only when some record is missing `tags`, `repeat` or
`checklist`. -/
def normalizeOnLoad (current : List RawTask) : List RawTask :=
  let needsUpdate := current.any (fun task =>
    task.tags.isNone || task.«repeat».isNone || task.checklist.isNone)
  if needsUpdate then current.map (fun task => normalizeTask task)
  else current

/-- `replaceTasks` (wholesale import): normalize every incoming record. -/
def replaceTasks (nextTasks : List RawTask) : List RawTask :=
  nextTasks.map (fun task => normalizeTask task)

/-- All fields of a stored record are populated (nothing for normalization
to fill in). -/
def fullyPopulated (t : RawTask) : Bool :=
  t.«section».isSome && t.tags.isSome && t.«repeat».isSome && t.checklist.isSome &&
  t.reminderAt.isSome && t.myDay.isSome && t.lastCompletedAt.isSome &&
  t.streak.isSome && t.completedDates.isSome


/-! ## Spec-side formulations and sample data -/

/-- Advancing a date by one cadence unit (the specification's "advance by
one cadence unit (day/week/month/year)"). -/
def advanceOneUnit (r : Repeat) (d : DateTime) : DateTime :=
  match r with
  | .daily => addDays d 1
  | .weekly => addWeeks d 1
  | .monthly => addMonths d 1
  | .yearly => addYears d 1
  | .none => d

/-- The calendar-unit delta between two instants in the cadence unit of a
repeat setting (the specification's "cadence delta"). -/
def cadenceDelta (r : Repeat) (now last : DateTime) : Int :=
  match r with
  | .daily => differenceInCalendarDays now last
  | .weekly => differenceInCalendarWeeks now last
  | .monthly => differenceInCalendarMonths now last
  | .yearly => differenceInCalendarYears now last
  | .none => 0

/-- The reference capture input of the specification's first testable
property. -/
def c1Input : String := "Ship report #work @deadline !high every week >Launch"

/-- A sample repeating (daily) task used by witnesses; due
2024-01-01, last completed 2023-12-31, streak 3. -/
def sampleDaily : Task :=
  { id := "t1", title := "water plants", category := "personal",
    «section» := "", tags := [], dueDate := some ⟨19723, 0⟩,
    reminderAt := none, priority := .none, «repeat» := .daily,
    status := .todo, notes := "", checklist := [], myDay := [],
    lastCompletedAt := some ⟨19722, 500⟩, streak := 3,
    completedDates := ["2023-12-31"], createdAt := ⟨19000, 0⟩ }

/-- A sample non-repeating task used by witnesses. -/
def samplePlain : Task :=
  { id := "t2", title := "file taxes", category := "finance",
    «section» := "", tags := [], dueDate := none, reminderAt := none,
    priority := .none, «repeat» := .none, status := .todo, notes := "",
    checklist := [], myDay := [], lastCompletedAt := none, streak := 0,
    completedDates := [], createdAt := ⟨19000, 0⟩ }

/-- A stored record that has `tags`, `repeat` and `checklist` but is
missing the newer `myDay` field. -/
def legacyMyDayRecord : RawTask :=
  { id := "a", title := "old", category := "personal", dueDate := none,
    priority := .none, status := .todo, notes := "", createdAt := ⟨19000, 0⟩,
    «section» := some "", tags := some [], «repeat» := some Repeat.none,
    checklist := some [], reminderAt := some none, myDay := none,
    lastCompletedAt := some none, streak := some 0, completedDates := some [] }

/-- A stored record that is missing `tags` (and `myDay`), triggering the
on-load normalization. -/
def legacyTagsRecord : RawTask :=
  { id := "b", title := "older", category := "personal", dueDate := none,
    priority := .none, status := .todo, notes := "", createdAt := ⟨19000, 0⟩,
    «section» := none, tags := none, «repeat» := some Repeat.daily,
    checklist := some [], reminderAt := none, myDay := none,
    lastCompletedAt := none, streak := none, completedDates := none }

/-- A fully populated stored record, as produced by export of a normalized
collection. -/
def populatedRecord : RawTask :=
  { id := "c", title := "new", category := "work", dueDate := some ⟨19723, 0⟩,
    priority := .high, status := .todo, notes := "n", createdAt := ⟨19001, 0⟩,
    «section» := some "Launch", tags := some ["deadline"],
    «repeat» := some Repeat.weekly, checklist := some [⟨"c1", "step", false⟩],
    reminderAt := some (some ⟨19723, 32400⟩), myDay := some ["2024-01-01"],
    lastCompletedAt := some none, streak := some 2,
    completedDates := some ["2023-12-25"] }


/-- A sample non-repeating task in the in-progress status, used by
witnesses. -/
def sampleInProgress : Task := { samplePlain with status := .inProgress }

/-! ## Shared lemmas -/

set_option maxRecDepth 8000

theorem lookupWeekday_bounds (w : List Char) :
    0 ≤ lookupWeekday w ∧ lookupWeekday w < 7 := by
  unfold lookupWeekday
  rcases h : weekdayIndexes.find? (fun p => p.1.data = w) with _ | p
  · rw [h]; simp
  · rw [h]
    have hm := List.mem_of_find?_eq_some h
    simp [weekdayIndexes] at hm
    rcases hm with rfl | rfl | rfl | rfl | rfl | rfl | rfl | rfl | rfl | rfl |
      rfl | rfl | rfl | rfl | rfl | rfl | rfl <;> simp

theorem nextDay_rd_bounds (dt : DateTime) (idx : Int)
    (h0 : 0 ≤ idx) (h7 : idx < 7) :
    dt.rd < (nextDay dt idx).rd ∧ (nextDay dt idx).rd ≤ dt.rd + 7 ∧
    getDay (nextDay dt idx) = idx := by
  unfold nextDay getDay addDays
  dsimp only
  split <;> refine ⟨by omega, by omega, by omega⟩

theorem normalizeTask_fixed (t : RawTask) (h : fullyPopulated t = true) :
    normalizeTask t = t := by
  rcases t with ⟨id, title, category, dueDate, priority, status, notes, createdAt,
    sec, tags, rep, checklist, reminderAt, myDay, lastC, streak, completedDates⟩
  simp only [fullyPopulated, Bool.and_eq_true, Option.isSome_iff_exists] at h
  obtain ⟨⟨⟨⟨⟨⟨⟨⟨⟨s1, rfl⟩, t1, rfl⟩, r1, rfl⟩, c1, rfl⟩, m1, rfl⟩, y1, rfl⟩,
    l1, rfl⟩, k1, rfl⟩, d1, rfl⟩ := h
  simp [normalizeTask]

/-! ## Claim theorems -/

/-- Claim C1 (code bug): on the reference input
`"Ship report #work @deadline !high every week >Launch"` the capture parser
computes category `work`, tags `["deadline"]`, repeat `weekly` and section
`"Launch"` as the specification states, but priority `none` (not `high`) and
cleaned title `"Ship report !high"` (not `"Ship report"`): the patterns
`\b(!high|!med|!medium|!low|p1|p2|p3)\b` can never match a `!`-marker that
follows a space or the start of the string, because `\b` before the
non-word character `!` requires a word character immediately before it. -/
theorem c1_capture_reference_input :
    getCategoryFromInput c1Input DEFAULT_CATEGORIES = "work" ∧
    extractTags c1Input = ["deadline"] ∧
    extractRepeat c1Input = Repeat.weekly ∧
    extractSection c1Input = "Launch" ∧
    extractPriority c1Input = Priority.none ∧
    cleanTaskTitle c1Input = "Ship report !high" := by
  refine ⟨?_, ?_, ?_, ?_, ?_, ?_⟩ <;> decide

/-- Claim C2 (confirmed): toggling a repeating task that is not done yields
status `todo`, due date the start of day of the base date advanced by one
cadence unit — the base being the current due date when set and otherwise
the completion instant — and `lastCompletedAt` set to the completion
instant. -/
theorem c2_repeat_rollover (task : Task) (now : DateTime)
    (hrep : task.«repeat» ≠ Repeat.none) (hstat : task.status ≠ Status.done) :
    (toggleStatusTask now task).status = Status.todo ∧
    (toggleStatusTask now task).dueDate =
      some (startOfDay (advanceOneUnit task.«repeat» (task.dueDate.getD now))) ∧
    (toggleStatusTask now task).lastCompletedAt = some now := by
  rcases task with ⟨id, title, category, sec, tags, dueDate, reminderAt, priority,
    rep, status, notes, checklist, myDay, lastC, streak, completedDates, createdAt⟩
  cases rep <;> cases dueDate <;>
    simp_all [toggleStatusTask, advanceOneUnit, Option.getD]

theorem c2_repeat_rollover_witness :
    sampleDaily.«repeat» ≠ Repeat.none ∧ sampleDaily.status ≠ Status.done ∧
    ((toggleStatusTask ⟨19723, 7200⟩ sampleDaily).status = Status.todo ∧
     (toggleStatusTask ⟨19723, 7200⟩ sampleDaily).dueDate =
       some (startOfDay (advanceOneUnit sampleDaily.«repeat»
         (sampleDaily.dueDate.getD ⟨19723, 7200⟩))) ∧
     (toggleStatusTask ⟨19723, 7200⟩ sampleDaily).lastCompletedAt =
       some ⟨19723, 7200⟩) :=
  ⟨by decide, by decide,
    c2_repeat_rollover sampleDaily ⟨19723, 7200⟩ (by decide) (by decide)⟩

/-- Claim C3 (confirmed): completing a repeating task updates the streak
from the calendar-unit delta between the completion instant and
`lastCompletedAt`: no prior completion gives streak 1, delta at most 0
leaves it unchanged, delta exactly 1 increments it, and a larger delta
resets it to 1. -/
theorem c3_streak_update (task : Task) (now : DateTime)
    (hrep : task.«repeat» ≠ Repeat.none) (hstat : task.status ≠ Status.done) :
    (task.lastCompletedAt = none → (toggleStatusTask now task).streak = 1) ∧
    (∀ last, task.lastCompletedAt = some last →
      ((cadenceDelta task.«repeat» now last ≤ 0 →
         (toggleStatusTask now task).streak = task.streak) ∧
       (cadenceDelta task.«repeat» now last = 1 →
         (toggleStatusTask now task).streak = task.streak + 1) ∧
       (1 < cadenceDelta task.«repeat» now last →
         (toggleStatusTask now task).streak = 1))) := by
  rcases task with ⟨id, title, category, sec, tags, dueDate, reminderAt, priority,
    rep, status, notes, checklist, myDay, lastC, streak, completedDates, createdAt⟩
  cases rep <;> rcases lastC with _ | last <;>
    simp_all [toggleStatusTask, cadenceDelta] <;>
    (intro h; split_ifs <;> omega)

theorem c3_streak_update_witness :
    sampleDaily.«repeat» ≠ Repeat.none ∧ sampleDaily.status ≠ Status.done ∧
    sampleDaily.lastCompletedAt = some ⟨19722, 500⟩ ∧
    cadenceDelta sampleDaily.«repeat» ⟨19723, 7200⟩ ⟨19722, 500⟩ = 1 ∧
    (toggleStatusTask ⟨19723, 7200⟩ sampleDaily).streak = sampleDaily.streak + 1 :=
  ⟨by decide, by decide, by decide, by decide,
    ((c3_streak_update sampleDaily ⟨19723, 7200⟩ (by decide) (by decide)).2
      ⟨19722, 500⟩ (by decide)).2.1 (by decide)⟩


/-- Claim C4 (corrected): the counterexample to the claim as stated.  On
Monday 2024-01-01 the input `"fri"` (a bare weekday, no `next`, no
`today`/`tomorrow`) resolves to Friday 2024-01-05 — four days in the
future — not to the most recent Friday on or before today. -/
theorem c4_bare_weekday_cex :
    extractDueDate "fri" ⟨19723, 0⟩ = some ⟨19727, 0⟩ ∧
    formatYMD ⟨19723, 0⟩ = "2024-01-01" ∧ getDay ⟨19723, 0⟩ = 1 ∧
    formatYMD ⟨19727, 0⟩ = "2024-01-05" ∧ getDay ⟨19727, 0⟩ = 5 ∧
    differenceInCalendarDays ⟨19727, 0⟩ ⟨19723, 0⟩ = 4 := by
  decide

/-- Claim C4 (corrected, amended): a bare weekday name (no `today`,
`tomorrow` or `next <weekday>` match) resolves to the first occurrence of
that weekday strictly after yesterday — that is, today when today is that
weekday and otherwise a future date at most six days ahead; never a past
date. -/
theorem c4_bare_weekday (input : String) (now : DateTime) (tok : List Char)
    (h1 : testWordToken "today" (lowerStr input) = false)
    (h2 : testWordToken "tomorrow" (lowerStr input) = false)
    (h3 : findNextWeekday (lowerStr input).data = none)
    (h4 : findBareWeekday (lowerStr input).data = some tok) :
    extractDueDate input now =
      some (startOfDay (nextDay (addDays (startOfDay now) (-1)) (lookupWeekday tok))) ∧
    ∀ d, extractDueDate input now = some d →
      (startOfDay now).rd ≤ d.rd ∧ d.rd ≤ (startOfDay now).rd + 6 ∧
      getDay d = lookupWeekday tok := by
  have heq : extractDueDate input now =
      some (startOfDay (nextDay (addDays (startOfDay now) (-1)) (lookupWeekday tok))) := by
    unfold extractDueDate
    dsimp only
    rw [h1, h2]
    simp only [Bool.false_eq_true, if_false, h3, h4]
  refine ⟨heq, ?_⟩
  intro d hd
  rw [heq] at hd
  obtain rfl := (Option.some_injective _ hd).symm
  have hb := lookupWeekday_bounds tok
  have hn := nextDay_rd_bounds (addDays (startOfDay now) (-1)) (lookupWeekday tok) hb.1 hb.2
  unfold startOfDay addDays getDay at *
  simp only at *
  omega

theorem c4_bare_weekday_witness :
    testWordToken "today" (lowerStr "fri") = false ∧
    testWordToken "tomorrow" (lowerStr "fri") = false ∧
    findNextWeekday (lowerStr "fri").data = none ∧
    findBareWeekday (lowerStr "fri").data = some "fri".data ∧
    extractDueDate "fri" ⟨19723, 0⟩ =
      some (startOfDay (nextDay (addDays (startOfDay ⟨19723, 0⟩) (-1))
        (lookupWeekday "fri".data))) :=
  ⟨by decide, by decide, by decide, by decide,
    (c4_bare_weekday "fri" ⟨19723, 0⟩ "fri".data
      (by decide) (by decide) (by decide) (by decide)).1⟩

/-- Claim C5 (corrected): the counterexample to the claim as stated.  On
Monday 2024-01-01 — a day earlier in the week than Friday — the input
`"next fri"` resolves to Friday 2024-01-05, which lies in the same
Sunday-started calendar week as today (`differenceInCalendarWeeks` is 0),
not in the following week. -/
theorem c5_next_weekday_cex :
    extractDueDate "next fri" ⟨19723, 0⟩ = some ⟨19727, 0⟩ ∧
    formatYMD ⟨19723, 0⟩ = "2024-01-01" ∧ getDay ⟨19723, 0⟩ = 1 ∧
    formatYMD ⟨19727, 0⟩ = "2024-01-05" ∧ getDay ⟨19727, 0⟩ = 5 ∧
    differenceInCalendarWeeks ⟨19727, 0⟩ ⟨19723, 0⟩ = 0 := by
  decide

/-- Claim C5 (corrected, amended): `next <weekday>` (no `today`/`tomorrow`
match) resolves to the start of day of the next occurrence of that weekday
strictly after today — between one and seven days ahead; when the named
weekday is still ahead in today's week the result lies in the current
week, not the following one. -/
theorem c5_next_weekday (input : String) (now : DateTime) (tok : List Char)
    (h1 : testWordToken "today" (lowerStr input) = false)
    (h2 : testWordToken "tomorrow" (lowerStr input) = false)
    (h3 : findNextWeekday (lowerStr input).data = some tok) :
    extractDueDate input now =
      some (startOfDay (addDays (nextDay (startOfDay now) (lookupWeekday tok)) 0)) ∧
    ∀ d, extractDueDate input now = some d →
      (startOfDay now).rd < d.rd ∧ d.rd ≤ (startOfDay now).rd + 7 ∧
      getDay d = lookupWeekday tok := by
  have heq : extractDueDate input now =
      some (startOfDay (addDays (nextDay (startOfDay now) (lookupWeekday tok)) 0)) := by
    unfold extractDueDate
    dsimp only
    rw [h1, h2]
    simp only [Bool.false_eq_true, if_false, h3]
  refine ⟨heq, ?_⟩
  intro d hd
  rw [heq] at hd
  obtain rfl := (Option.some_injective _ hd).symm
  have hb := lookupWeekday_bounds tok
  have hn := nextDay_rd_bounds (startOfDay now) (lookupWeekday tok) hb.1 hb.2
  unfold startOfDay addDays getDay at *
  simp only at *
  omega

theorem c5_next_weekday_witness :
    testWordToken "today" (lowerStr "next fri") = false ∧
    testWordToken "tomorrow" (lowerStr "next fri") = false ∧
    findNextWeekday (lowerStr "next fri").data = some "fri".data ∧
    extractDueDate "next fri" ⟨19723, 0⟩ =
      some (startOfDay (addDays (nextDay (startOfDay ⟨19723, 0⟩)
        (lookupWeekday "fri".data)) 0)) :=
  ⟨by decide, by decide, by decide,
    (c5_next_weekday "next fri" ⟨19723, 0⟩ "fri".data
      (by decide) (by decide) (by decide)).1⟩


/-- Claim C6 (confirmed): toggling a non-repeating task never changes
`streak` or `completedDates`; completing it (from any not-done status) sets
status `done` and `lastCompletedAt` to the completion instant, while
un-completing it (from `done`) sets status `todo` and leaves
`lastCompletedAt` untouched. -/
theorem c6_nonrepeating_toggle (task : Task) (now : DateTime)
    (hrep : task.«repeat» = Repeat.none) :
    (toggleStatusTask now task).streak = task.streak ∧
    (toggleStatusTask now task).completedDates = task.completedDates ∧
    (task.status ≠ Status.done →
      (toggleStatusTask now task).status = Status.done ∧
      (toggleStatusTask now task).lastCompletedAt = some now) ∧
    (task.status = Status.done →
      (toggleStatusTask now task).status = Status.todo ∧
      (toggleStatusTask now task).lastCompletedAt = task.lastCompletedAt) := by
  rcases task with ⟨id, title, category, sec, tags, dueDate, reminderAt, priority,
    rep, status, notes, checklist, myDay, lastC, streak, completedDates, createdAt⟩
  cases status <;> simp_all [toggleStatusTask]

theorem c6_nonrepeating_toggle_witness :
    samplePlain.«repeat» = Repeat.none ∧ samplePlain.status ≠ Status.done ∧
    (toggleStatusTask ⟨19723, 100⟩ samplePlain).streak = samplePlain.streak ∧
    (toggleStatusTask ⟨19723, 100⟩ samplePlain).completedDates =
      samplePlain.completedDates ∧
    (toggleStatusTask ⟨19723, 100⟩ samplePlain).status = Status.done ∧
    (toggleStatusTask ⟨19723, 100⟩ samplePlain).lastCompletedAt =
      some ⟨19723, 100⟩ := by
  have h := c6_nonrepeating_toggle samplePlain ⟨19723, 100⟩ (by decide)
  exact ⟨by decide, by decide, h.1, h.2.1,
    (h.2.2.1 (by decide)).1, (h.2.2.1 (by decide)).2⟩

/-- Claim C7 (confirmed): `addTask` leaves the collection unchanged exactly
when the cleaned title is empty — the only validation failure mode — and
otherwise prepends exactly the one parsed task, keeping the existing tasks
as they were. -/
theorem c7_addTask_empty_noop (id : String) (now : DateTime) (input : String)
    (current : List Task) :
    (addTask id now input current = current ↔ cleanTaskTitle input = "") ∧
    (cleanTaskTitle input ≠ "" →
      addTask id now input current = parsedTask id now input :: current) := by
  unfold addTask
  by_cases h : cleanTaskTitle input = "" <;> simp [h]

theorem c7_addTask_empty_noop_witness :
    cleanTaskTitle "buy milk" ≠ "" ∧
    addTask "id0" ⟨19723, 0⟩ "buy milk" [] = [parsedTask "id0" ⟨19723, 0⟩ "buy milk"] :=
  ⟨by decide,
    (c7_addTask_empty_noop "id0" ⟨19723, 0⟩ "buy milk" []).2 (by decide)⟩

/-- Claim C8 (corrected): the counterexample to the claim as stated.  A
stored record that has `tags`, `repeat` and `checklist` but is missing the
newer `myDay` field does not trigger the on-load normalization: the
collection is loaded unchanged and the field stays missing. -/
theorem c8_load_normalization_cex :
    normalizeOnLoad [legacyMyDayRecord] = [legacyMyDayRecord] ∧
    legacyMyDayRecord.myDay = none :=
  ⟨rfl, rfl⟩

/-- Claim C8 (corrected, amended): the on-load normalization runs only when
some stored record is missing `tags`, `repeat` or `checklist`; when it
runs, every record of the collection is normalized, every loaded record is
fully populated, and each missing newer field receives its documented
default (`tags→[]`, `repeat→none`, `checklist→[]`, `reminderAt→null`,
`myDay→[]`, `lastCompletedAt→null`, `streak→0`, `completedDates→[]`,
`section→""`). -/
theorem c8_load_normalization (current : List RawTask)
    (h : ∃ t ∈ current, t.tags = none ∨ t.«repeat» = none ∨ t.checklist = none) :
    normalizeOnLoad current = current.map (fun t => normalizeTask t) ∧
    (∀ t ∈ normalizeOnLoad current, fullyPopulated t = true) ∧
    (∀ t ∈ current,
      ((normalizeTask t).«section» = some (t.«section».getD "") ∧
       (normalizeTask t).tags = some (t.tags.getD []) ∧
       (normalizeTask t).«repeat» = some (t.«repeat».getD Repeat.none) ∧
       (normalizeTask t).checklist = some (t.checklist.getD []) ∧
       (normalizeTask t).reminderAt = some (t.reminderAt.getD none) ∧
       (normalizeTask t).myDay = some (t.myDay.getD []) ∧
       (normalizeTask t).lastCompletedAt = some (t.lastCompletedAt.getD none) ∧
       (normalizeTask t).streak = some (t.streak.getD 0) ∧
       (normalizeTask t).completedDates = some (t.completedDates.getD []))) := by
  have hneeds : (current.any (fun task =>
      task.tags.isNone || task.«repeat».isNone || task.checklist.isNone)) = true := by
    rw [List.any_eq_true]
    obtain ⟨t, ht, hcase⟩ := h
    exact ⟨t, ht, by rcases hcase with h' | h' | h' <;> simp [h', Option.isNone]⟩
  have hload : normalizeOnLoad current = current.map (fun t => normalizeTask t) := by
    unfold normalizeOnLoad
    rw [hneeds]
    simp
  refine ⟨hload, ?_, ?_⟩
  · intro t ht
    rw [hload] at ht
    obtain ⟨t0, _, rfl⟩ := List.mem_map.mp ht
    simp [normalizeTask, fullyPopulated]
  · intro t _
    simp [normalizeTask]

theorem c8_load_normalization_witness :
    (legacyTagsRecord.tags = none ∨ legacyTagsRecord.«repeat» = none ∨
      legacyTagsRecord.checklist = none) ∧
    normalizeOnLoad [legacyTagsRecord] =
      [legacyTagsRecord].map (fun t => normalizeTask t) ∧
    fullyPopulated (normalizeTask legacyTagsRecord) = true :=
  ⟨by decide,
    (c8_load_normalization [legacyTagsRecord]
      ⟨legacyTagsRecord, by simp, by decide⟩).1,
    by decide⟩

/-- Claim C9 (confirmed): normalization is the identity on every record
whose fields are all populated, so importing the export of an
already-normalized collection through `replaceTasks` reproduces the
collection unchanged (export and JSON parsing being the identity encoding
of the collection). -/
theorem c9_replace_roundtrip (ts : List RawTask)
    (h : ∀ t ∈ ts, fullyPopulated t = true) :
    replaceTasks ts = ts := by
  unfold replaceTasks
  induction ts with
  | nil => rfl
  | cons t rest ih =>
    simp only [List.map_cons, List.cons.injEq]
    exact ⟨normalizeTask_fixed t (h t (by simp)),
      ih (fun x hx => h x (by simp [hx]))⟩

theorem c9_replace_roundtrip_witness :
    fullyPopulated populatedRecord = true ∧
    replaceTasks [populatedRecord] = [populatedRecord] :=
  ⟨by decide, c9_replace_roundtrip [populatedRecord] (by decide)⟩

/-- Claim C10 (confirmed): toggling an in-progress task counts as a
completion: a non-repeating one goes straight to `done` (never back to
`todo`) with `lastCompletedAt` set to the completion instant, and a
repeating one goes through the full rollover (status `todo`, advanced due
date, `lastCompletedAt` set, completion date recorded). -/
theorem c10_in_progress_toggle (task : Task) (now : DateTime)
    (hstat : task.status = Status.inProgress) :
    (task.«repeat» = Repeat.none →
      (toggleStatusTask now task).status = Status.done ∧
      (toggleStatusTask now task).lastCompletedAt = some now) ∧
    (task.«repeat» ≠ Repeat.none →
      (toggleStatusTask now task).status = Status.todo ∧
      (toggleStatusTask now task).dueDate =
        some (startOfDay (advanceOneUnit task.«repeat» (task.dueDate.getD now))) ∧
      (toggleStatusTask now task).lastCompletedAt = some now ∧
      (toggleStatusTask now task).completedDates =
        setAdd task.completedDates (formatYMD (startOfDay now))) := by
  rcases task with ⟨id, title, category, sec, tags, dueDate, reminderAt, priority,
    rep, status, notes, checklist, myDay, lastC, streak, completedDates, createdAt⟩
  cases rep <;> cases dueDate <;>
    simp_all [toggleStatusTask, advanceOneUnit, Option.getD]

theorem c10_in_progress_toggle_witness :
    sampleInProgress.status = Status.inProgress ∧
    sampleInProgress.«repeat» = Repeat.none ∧
    (toggleStatusTask ⟨19723, 50⟩ sampleInProgress).status = Status.done ∧
    (toggleStatusTask ⟨19723, 50⟩ sampleInProgress).lastCompletedAt =
      some ⟨19723, 50⟩ := by
  have h := (c10_in_progress_toggle sampleInProgress ⟨19723, 50⟩ (by decide)).1
    (by decide)
  exact ⟨by decide, by decide, h.1, h.2⟩

end Timely
